import Mathlib

/-!
Shallow embedding of the HSIE utterance-structuring rule engine
(`hsie/entrypoint/services/asr_result_structurer.py`), together with proofs
of its specified properties.

Modelling choices:
* Python `float` times are modelled as exact rationals `ℚ`; all the constants
  involved (`0.7`, `2.0`) and the concrete test inputs are exactly
  representable, and the code only compares, subtracts and maximises them.
* Python `str` text payloads are modelled as `List Char` so that `strip` and
  `endswith` are structurally recursive and evaluate inside the kernel;
  `pyStrip` and `pyEndsWith` below translate `str.strip()` / `str.endswith`.
  Fixed label strings (speaker ids, the pause-level labels) carry no text
  operations and stay `String`.
* `uuid4()` generates a fresh opaque identifier.  No property here depends on
  the value of an identifier, only on identifiers being copied unchanged by
  `_merge_with_previous`, so `utterance_id` is modelled deterministically as
  the unit's creation index.
* `ASRResult` carries many fields but `structure` reads only `.segments`,
  so the engine is modelled as a function of the segment list.
* The working list `units` is accumulated most-recent-first (Python appends
  and accesses `units[-1]`; here we cons and access the head) and reversed at
  the end.
-/

attribute [local semireducible] Rat.add Rat.sub Rat.mul Rat.inv

/-- The whitespace test behind Python's default `str.strip()` (ASCII
whitespace plus the ideographic space, the cases relevant to this data). -/
def isPyWhitespace (c : Char) : Bool :=
  c = ' ' || c = '\t' || c = '\n' || c = '\r' || c = '\x0b' || c = '\x0c' || c = '　'

/-- Translates Python `text.strip()`: drop whitespace from both ends. -/
def pyStrip (text : List Char) : List Char :=
  ((text.dropWhile isPyWhitespace).reverse.dropWhile isPyWhitespace).reverse

/-- Translates Python `text.endswith(ending)`. -/
def pyEndsWith (text ending : List Char) : Bool :=
  ending.isSuffixOf text

/-- Embeds `ASRSegment` (asr_service.py): one raw timed ASR span. -/
structure ASRSegment where
  segment_id : Int
  start_time : ℚ
  end_time : ℚ
  text : List Char
  speaker_id : Option String
deriving DecidableEq

/-- Embeds `UtteranceUnit` (asr_result_structurer.py): one finalized unit. -/
structure UtteranceUnit where
  utterance_id : Nat
  speaker_id : String
  text : List Char
  start_time : ℚ
  end_time : ℚ
  duration : ℚ
  confidence : Option ℚ
  pause_before : ℚ
  pause_level : String
  index_in_session : Nat
deriving DecidableEq

/-- Embeds `PAUSE_THRESHOLD_SHORT = 0.7`. -/
def PAUSE_THRESHOLD_SHORT : ℚ := 7/10

/-- Embeds `PAUSE_THRESHOLD_LONG = 2.0`. -/
def PAUSE_THRESHOLD_LONG : ℚ := 2

/-- Embeds the `FILLER_WORDS` set (only membership is ever asked of it). -/
def FILLER_WORDS : List (List Char) :=
  ["えー".data, "あの".data, "そのー".data, "えっと".data, "まあ".data,
   "なんか".data, "その".data, "あー".data, "うーん".data, "んー".data]

/-- Embeds the `INCOMPLETE_ENDINGS` set. -/
def INCOMPLETE_ENDINGS : List (List Char) :=
  ["て".data, "で".data, "から".data, "ので".data, "のに".data,
   "けど".data, "が".data, "けれど".data, "けれども".data]

/-- Embeds `ASRResultStructurer._is_filler_only`: strip, then exact membership. -/
def isFillerOnly (text : List Char) : Bool :=
  FILLER_WORDS.contains (pyStrip text)

/-- Embeds `ASRResultStructurer._has_incomplete_ending`: strip, then any-suffix test. -/
def hasIncompleteEnding (text : List Char) : Bool :=
  INCOMPLETE_ENDINGS.any (fun ending => pyEndsWith (pyStrip text) ending)

/-- Embeds `ASRResultStructurer._is_short_pause`: strict comparison with the
short threshold. -/
def isShortPause (pause_duration : ℚ) : Bool :=
  pause_duration < PAUSE_THRESHOLD_SHORT

/-- Embeds `ASRResultStructurer._classify_pause_level`. -/
def classifyPauseLevel (pause_duration : ℚ) : String :=
  if pause_duration < PAUSE_THRESHOLD_SHORT then ("SHORT")
  else if pause_duration < PAUSE_THRESHOLD_LONG then ("NORMAL")
  else ("LONG")

/-- Embeds `ASRResultStructurer._merge_segments`:
text is `f"{segment1.text} {segment2.text}".strip()`, id/speaker/start come
from the first segment, end from the second. -/
def mergeSegments (segment1 segment2 : ASRSegment) : ASRSegment :=
  { segment_id := segment1.segment_id
    start_time := segment1.start_time
    end_time := segment2.end_time
    text := pyStrip (segment1.text ++ ' ' :: segment2.text)
    speaker_id := segment1.speaker_id }

/-- Embeds `ASRResultStructurer._merge_with_previous`: absorb a filler segment
into the last unit, keeping pause fields, id and index unchanged. -/
def mergeWithPrevious (previous_unit : UtteranceUnit) (filler_segment : ASRSegment) :
    UtteranceUnit :=
  let merged_text := pyStrip (previous_unit.text ++ ' ' :: filler_segment.text)
  let merged_end := max previous_unit.end_time filler_segment.end_time
  { utterance_id := previous_unit.utterance_id
    speaker_id := previous_unit.speaker_id
    text := merged_text
    start_time := previous_unit.start_time
    end_time := merged_end
    duration := merged_end - previous_unit.start_time
    confidence := previous_unit.confidence
    pause_before := previous_unit.pause_before
    pause_level := previous_unit.pause_level
    index_in_session := previous_unit.index_in_session }

/-- Embeds `ASRResultStructurer._create_utterance_unit`.  `previous_units` is
the working list most-recent-first, so Python's `previous_units[-1]` is the
head here. -/
def createUtteranceUnit (segment : ASRSegment) (speaker_id : String)
    (previous_units : List UtteranceUnit) (index : Nat) : UtteranceUnit :=
  let pause_before : ℚ :=
    match previous_units with
    | last_unit :: _ => max 0 (segment.start_time - last_unit.end_time)
    | [] => 0
  { utterance_id := index
    speaker_id := speaker_id
    text := segment.text
    start_time := segment.start_time
    end_time := segment.end_time
    duration := segment.end_time - segment.start_time
    confidence := none
    pause_before := pause_before
    pause_level := classifyPauseLevel pause_before
    index_in_session := index }

/-- Embeds the `while i < len(segments)` loop of `ASRResultStructurer.structure`.
`acc` is the `utterance_units` list most-recent-first; the remaining segment
list plays the role of the cursor `i`.  The one-segment and two-or-more-segment
cases are spelled out separately because the incomplete-ending rule needs the
lookahead guard `i + 1 < len(segments)`; both repeat the same filler check. -/
def structureLoop (speaker_id : String) :
    List UtteranceUnit → Nat → List ASRSegment → List UtteranceUnit
  | acc, _, [] => acc.reverse
  | acc, index, [s] =>
    match acc, isFillerOnly s.text with
    | u :: acc', true =>
      structureLoop speaker_id (mergeWithPrevious u s :: acc') index []
    | a, _ =>
      structureLoop speaker_id (createUtteranceUnit s speaker_id a index :: a) (index + 1) []
  | acc, index, s :: next :: rest' =>
    match acc, isFillerOnly s.text with
    | u :: acc', true =>
      structureLoop speaker_id (mergeWithPrevious u s :: acc') index (next :: rest')
    | a, _ =>
      if !isFillerOnly next.text && hasIncompleteEnding s.text &&
          isShortPause (next.start_time - s.end_time) then
        structureLoop speaker_id
          (createUtteranceUnit (mergeSegments s next) speaker_id a index :: a)
          (index + 1) rest'
      else
        structureLoop speaker_id
          (createUtteranceUnit s speaker_id a index :: a)
          (index + 1) (next :: rest')

/-- The sort key of `sorted(asr_result.segments, key=lambda s: s.start_time)`. -/
def segStartLE (a b : ASRSegment) : Prop :=
  a.start_time ≤ b.start_time

instance : DecidableRel segStartLE :=
  fun a b => inferInstanceAs (Decidable (a.start_time ≤ b.start_time))

instance : IsTotal ASRSegment segStartLE :=
  ⟨fun a b => le_total a.start_time b.start_time⟩

instance : IsTrans ASRSegment segStartLE :=
  ⟨fun _ _ _ h h' => le_trans h h'⟩

/-- Embeds `ASRResultStructurer.structure`: sort the segments by `start_time`
(Python's `sorted` is a stable sort; `insertionSort` is also stable, so both
give the same list), return `[]` on empty input, otherwise run the loop. -/
def structureSegments (asr_segments : List ASRSegment) (speaker_id : String) :
    List UtteranceUnit :=
  let segments := asr_segments.insertionSort segStartLE
  if segments.isEmpty then [] else structureLoop speaker_id [] 0 segments

/-- The text formula the spec states for `mergeSegments` and `absorbFiller`:
both sides stripped first, joined with one ASCII space, result re-stripped.
This follows the spec's words, to be compared with what the code computes. -/
def specStripJoin (a b : List Char) : List Char :=
  pyStrip (pyStrip a ++ ' ' :: pyStrip b)

/-! ### Small unfolding and projection lemmas -/

lemma structureLoop_nil (spk : String) (acc : List UtteranceUnit) (idx : Nat) :
    structureLoop spk acc idx [] = acc.reverse := rfl

lemma structureLoop_filler (spk : String) (u : UtteranceUnit) (acc' : List UtteranceUnit)
    (idx : Nat) (s : ASRSegment) (rest : List ASRSegment)
    (h : isFillerOnly s.text = true) :
    structureLoop spk (u :: acc') idx (s :: rest) =
      structureLoop spk (mergeWithPrevious u s :: acc') idx rest := by
  cases rest <;> simp [structureLoop, h]

lemma structureLoop_single (spk : String) (acc : List UtteranceUnit) (idx : Nat)
    (s : ASRSegment) (h : acc = [] ∨ isFillerOnly s.text = false) :
    structureLoop spk acc idx [s] =
      structureLoop spk (createUtteranceUnit s spk acc idx :: acc) (idx + 1) [] := by
  rcases h with rfl | h
  · rfl
  · cases acc <;> simp [structureLoop, h]

lemma structureLoop_merge (spk : String) (acc : List UtteranceUnit) (idx : Nat)
    (s next : ASRSegment) (rest' : List ASRSegment)
    (hacc : acc = [] ∨ isFillerOnly s.text = false)
    (hcond : (!isFillerOnly next.text && hasIncompleteEnding s.text &&
      isShortPause (next.start_time - s.end_time)) = true) :
    structureLoop spk acc idx (s :: next :: rest') =
      structureLoop spk
        (createUtteranceUnit (mergeSegments s next) spk acc idx :: acc) (idx + 1) rest' := by
  rcases hacc with rfl | h
  · simp [structureLoop, hcond]
  · cases acc <;> simp [structureLoop, h, hcond]

lemma structureLoop_normal (spk : String) (acc : List UtteranceUnit) (idx : Nat)
    (s next : ASRSegment) (rest' : List ASRSegment)
    (hacc : acc = [] ∨ isFillerOnly s.text = false)
    (hcond : (!isFillerOnly next.text && hasIncompleteEnding s.text &&
      isShortPause (next.start_time - s.end_time)) = false) :
    structureLoop spk acc idx (s :: next :: rest') =
      structureLoop spk
        (createUtteranceUnit s spk acc idx :: acc) (idx + 1) (next :: rest') := by
  rcases hacc with rfl | h
  · simp [structureLoop, hcond]
  · cases acc <;> simp [structureLoop, h, hcond]

lemma createUtteranceUnit_pause_nil (s : ASRSegment) (spk : String) (idx : Nat) :
    (createUtteranceUnit s spk [] idx).pause_before = 0 := rfl

lemma createUtteranceUnit_pause_cons (s : ASRSegment) (spk : String)
    (v : UtteranceUnit) (acc : List UtteranceUnit) (idx : Nat) :
    (createUtteranceUnit s spk (v :: acc) idx).pause_before =
      max 0 (s.start_time - v.end_time) := rfl

lemma createUtteranceUnit_pause_nonneg (s : ASRSegment) (spk : String)
    (acc : List UtteranceUnit) (idx : Nat) :
    0 ≤ (createUtteranceUnit s spk acc idx).pause_before := by
  cases acc
  · exact le_of_eq (createUtteranceUnit_pause_nil s spk idx).symm
  · exact (createUtteranceUnit_pause_cons ..).symm ▸ le_max_left 0 _

lemma createUtteranceUnit_level (s : ASRSegment) (spk : String)
    (acc : List UtteranceUnit) (idx : Nat) :
    (createUtteranceUnit s spk acc idx).pause_level =
      classifyPauseLevel (createUtteranceUnit s spk acc idx).pause_before := rfl

lemma createUtteranceUnit_index (s : ASRSegment) (spk : String)
    (acc : List UtteranceUnit) (idx : Nat) :
    (createUtteranceUnit s spk acc idx).index_in_session = idx := rfl

lemma createUtteranceUnit_start (s : ASRSegment) (spk : String)
    (acc : List UtteranceUnit) (idx : Nat) :
    (createUtteranceUnit s spk acc idx).start_time = s.start_time := rfl

lemma mergeWithPrevious_index (u : UtteranceUnit) (f : ASRSegment) :
    (mergeWithPrevious u f).index_in_session = u.index_in_session := rfl

lemma mergeWithPrevious_start (u : UtteranceUnit) (f : ASRSegment) :
    (mergeWithPrevious u f).start_time = u.start_time := rfl

lemma mergeWithPrevious_pause (u : UtteranceUnit) (f : ASRSegment) :
    (mergeWithPrevious u f).pause_before = u.pause_before := rfl

lemma mergeWithPrevious_level (u : UtteranceUnit) (f : ASRSegment) :
    (mergeWithPrevious u f).pause_level = u.pause_level := rfl

lemma mergeSegments_start (a b : ASRSegment) :
    (mergeSegments a b).start_time = a.start_time := rfl

lemma isShortPause_iff (q : ℚ) : isShortPause q = true ↔ q < 7/10 := by
  simp [isShortPause, PAUSE_THRESHOLD_SHORT]

/-- Turns the overlap-guard hypothesis produced by the functional induction
principle of `structureLoop` into the disjunction the step lemmas take. -/
lemma acc_case_resolve {a : List UtteranceUnit} {t : List Char}
    (h : ∀ (u : UtteranceUnit) (acc' : List UtteranceUnit),
      a = u :: acc' → isFillerOnly t = true → False) :
    a = [] ∨ isFillerOnly t = false := by
  cases a with
  | nil => exact Or.inl rfl
  | cons u acc' =>
    cases hf : isFillerOnly t with
    | false => exact Or.inr rfl
    | true => exact (h u acc' rfl hf).elim

/-- None of the ten filler words ends with any of the nine incomplete endings,
so a filler-only text never tests positive for an incomplete ending. -/
lemma isFillerOnly_not_incomplete {t : List Char} (h : isFillerOnly t = true) :
    hasIncompleteEnding t = false := by
  have hmem : pyStrip t ∈ FILLER_WORDS := by
    simpa [isFillerOnly] using h
  unfold hasIncompleteEnding
  unfold FILLER_WORDS at hmem
  simp only [List.mem_cons, List.not_mem_nil, or_false] at hmem
  rcases hmem with h' | h' | h' | h' | h' | h' | h' | h' | h' | h' <;> rw [h'] <;> decide

lemma hasIncomplete_not_filler {t : List Char} (h : hasIncompleteEnding t = true) :
    isFillerOnly t = false := by
  cases hf : isFillerOnly t
  · rfl
  · rw [isFillerOnly_not_incomplete hf] at h
    exact absurd h (by simp)

lemma bool_eq_false {b : Bool} (h : ¬ b = true) : b = false := by
  cases b
  · rfl
  · exact absurd rfl h

lemma structureSegments_eq_loop (l : List ASRSegment) (spk : String) :
    structureSegments l spk = structureLoop spk [] 0 (l.insertionSort segStartLE) := by
  unfold structureSegments
  cases h : (l.insertionSort segStartLE).isEmpty
  · simp [h]
  · rw [List.isEmpty_iff.mp h]
    rfl

lemma classifyPauseLevel_iff (q : ℚ) :
    (classifyPauseLevel q = "SHORT" ↔ q < 7/10) ∧
    (classifyPauseLevel q = "NORMAL" ↔ 7/10 ≤ q ∧ q < 2) ∧
    (classifyPauseLevel q = "LONG" ↔ 2 ≤ q) := by
  unfold classifyPauseLevel PAUSE_THRESHOLD_SHORT PAUSE_THRESHOLD_LONG
  split_ifs with h1 h2 <;>
    refine ⟨⟨fun he => ?_, fun hq => ?_⟩, ⟨fun he => ?_, fun hq => ?_⟩,
      ⟨fun he => ?_, fun hq => ?_⟩⟩ <;>
    first
      | rfl
      | exact absurd he (by decide)
      | (try constructor) <;> linarith

/-- Every unit in the working list satisfies the level-classifier consistency,
and the loop preserves it: unit creation computes `pause_level` from
`pause_before`, and filler absorption copies both fields unchanged. -/
lemma structureLoop_level_inv (spk : String) :
    ∀ (acc : List UtteranceUnit) (idx : Nat) (segs : List ASRSegment),
    (∀ u ∈ acc, u.pause_level = classifyPauseLevel u.pause_before) →
    ∀ u ∈ structureLoop spk acc idx segs,
      u.pause_level = classifyPauseLevel u.pause_before := by
  intro acc idx segs
  induction acc, idx, segs using structureLoop.induct spk with
  | case1 acc idx =>
    intro hacc u hu
    rw [structureLoop_nil] at hu
    exact hacc u (List.mem_reverse.mp hu)
  | case2 idx s u acc' hf ih =>
    intro hacc v hv
    rw [structureLoop_filler spk u acc' idx s [] hf] at hv
    refine ih ?_ v hv
    intro w hw
    rcases List.mem_cons.mp hw with rfl | hw
    · rw [mergeWithPrevious_level, mergeWithPrevious_pause]
      exact hacc u (List.mem_cons_self u acc')
    · exact hacc w (List.mem_cons_of_mem u hw)
  | case3 idx s a hguard ih =>
    intro hacc v hv
    rw [structureLoop_single spk a idx s (acc_case_resolve hguard)] at hv
    refine ih ?_ v hv
    intro w hw
    rcases List.mem_cons.mp hw with rfl | hw
    · exact createUtteranceUnit_level s spk a idx
    · exact hacc w hw
  | case4 idx s next rest' u acc' hf ih =>
    intro hacc v hv
    rw [structureLoop_filler spk u acc' idx s (next :: rest') hf] at hv
    refine ih ?_ v hv
    intro w hw
    rcases List.mem_cons.mp hw with rfl | hw
    · rw [mergeWithPrevious_level, mergeWithPrevious_pause]
      exact hacc u (List.mem_cons_self u acc')
    · exact hacc w (List.mem_cons_of_mem u hw)
  | case5 idx s next rest' a hcond hguard ih =>
    intro hacc v hv
    rw [structureLoop_merge spk a idx s next rest' (acc_case_resolve hguard) hcond] at hv
    refine ih ?_ v hv
    intro w hw
    rcases List.mem_cons.mp hw with rfl | hw
    · exact createUtteranceUnit_level (mergeSegments s next) spk a idx
    · exact hacc w hw
  | case6 idx s next rest' a hcond hguard ih =>
    intro hacc v hv
    rw [structureLoop_normal spk a idx s next rest' (acc_case_resolve hguard)
      (bool_eq_false hcond)] at hv
    refine ih ?_ v hv
    intro w hw
    rcases List.mem_cons.mp hw with rfl | hw
    · exact createUtteranceUnit_level s spk a idx
    · exact hacc w hw

/-! ### Claim theorems -/

/-- C9: for the empty segment list and any speaker id, `structure` returns the
empty unit list (and, being a total function, raises no error). -/
theorem structureSegments_empty (speaker_id : String) :
    structureSegments [] speaker_id = [] := rfl

/-- C6: the pause classifier is a total function whose boundaries are half-open
on the lower bound: strictly below `0.7` is SHORT, from `0.7` up to but
excluding `2.0` is NORMAL, from `2.0` on is LONG; in particular `0.69` is
SHORT, `0.7` is NORMAL, `1.99` is NORMAL and `2.0` is LONG. -/
theorem classifyPauseLevel_boundaries :
    (∀ q : ℚ,
      (classifyPauseLevel q = "SHORT" ↔ q < 7/10) ∧
      (classifyPauseLevel q = "NORMAL" ↔ 7/10 ≤ q ∧ q < 2) ∧
      (classifyPauseLevel q = "LONG" ↔ 2 ≤ q)) ∧
    classifyPauseLevel (69/100) = "SHORT" ∧
    classifyPauseLevel (7/10) = "NORMAL" ∧
    classifyPauseLevel (199/100) = "NORMAL" ∧
    classifyPauseLevel 2 = "LONG" :=
  ⟨fun q => classifyPauseLevel_iff q, by decide, by decide, by decide, by decide⟩

/-- C3 counterexample: with a trailing space inside the first text, the code
keeps the inner double space while the spec formula (both sides stripped
before joining) collapses it, so the claimed text equation fails. -/
theorem mergeSegments_text_counterexample :
    (mergeSegments ⟨1, 0, 1, "a ".data, none⟩ ⟨2, 2, 3, "b".data, none⟩).text ≠
      specStripJoin ("a ".data) ("b".data) := by decide

/-- C3 amended: `_merge_segments` returns the segment with text equal to the
two texts joined by a single ASCII space with only the combined result
stripped (the two sides are not stripped individually), `start_time` and
`segment_id` and `speaker_id` from the first segment, `end_time` from the
second. -/
theorem mergeSegments_spec (a b : ASRSegment) :
    mergeSegments a b =
      { segment_id := a.segment_id
        start_time := a.start_time
        end_time := b.end_time
        text := pyStrip (a.text ++ ' ' :: b.text)
        speaker_id := a.speaker_id } := rfl

/-- C4 counterexample: with a trailing space inside the unit text, the code
keeps the inner double space while the spec formula (both sides stripped
before joining) collapses it, so the claimed text equation fails. -/
theorem mergeWithPrevious_text_counterexample :
    (mergeWithPrevious ⟨0, "spk", "x ".data, 0, 1, 1, none, 0, "SHORT", 0⟩
        ⟨1, 1, 2, "y".data, none⟩).text ≠
      specStripJoin ("x ".data) ("y".data) := by decide

/-- C4 amended: `_merge_with_previous` keeps `utterance_id`, `speaker_id`,
`start_time`, `pause_before`, `pause_level`, `index_in_session` and
`confidence` of the unit unchanged (pause fields deliberately not recomputed),
sets `end_time = max(unit.end_time, filler.end_time)` and
`duration = end_time - start_time`, and sets the text to the two texts joined
by a single ASCII space with only the combined result stripped (the two sides
are not stripped individually). -/
theorem mergeWithPrevious_spec (u : UtteranceUnit) (f : ASRSegment) :
    mergeWithPrevious u f =
      { utterance_id := u.utterance_id
        speaker_id := u.speaker_id
        text := pyStrip (u.text ++ ' ' :: f.text)
        start_time := u.start_time
        end_time := max u.end_time f.end_time
        duration := max u.end_time f.end_time - u.start_time
        confidence := u.confidence
        pause_before := u.pause_before
        pause_level := u.pause_level
        index_in_session := u.index_in_session } := rfl

/-- C5: when the current segment has an incomplete ending, a next segment
exists that is not itself filler-only, and the gap to it is strictly below
`0.7`, the walk merges the two segments into one unit built from
`mergeSegments` at the current index, consuming both segments and one index;
on the spec's two-segment example this yields exactly one unit with the texts
joined by a space, spanning `0.0` to `2.0`. -/
theorem incompleteEnding_merge
    (speaker_id : String) (acc : List UtteranceUnit) (index : Nat)
    (s next : ASRSegment) (rest : List ASRSegment)
    (h1 : hasIncompleteEnding s.text = true)
    (h2 : isFillerOnly next.text = false)
    (h3 : next.start_time - s.end_time < 7/10) :
    structureLoop speaker_id acc index (s :: next :: rest) =
      structureLoop speaker_id
        (createUtteranceUnit (mergeSegments s next) speaker_id acc index :: acc)
        (index + 1) rest ∧
    structureSegments
        [⟨1, 0, 1, "今日は晴れたので".data, none⟩, ⟨2, 13/10, 2, "出かけました".data, none⟩]
        "spk" =
      [⟨0, "spk", "今日は晴れたので 出かけました".data, 0, 2, 2, none, 0, "SHORT", 0⟩] := by
  constructor
  · refine structureLoop_merge speaker_id acc index s next rest
      (Or.inr (hasIncomplete_not_filler h1)) ?_
    rw [h1, h2, (isShortPause_iff _).mpr h3]
    rfl
  · decide

theorem incompleteEnding_merge_witness :
    structureLoop ("spk") [] 0
        [⟨1, 0, 1, "今日は晴れたので".data, none⟩, ⟨2, 13/10, 2, "出かけました".data, none⟩] =
      structureLoop ("spk")
        [createUtteranceUnit
          (mergeSegments ⟨1, 0, 1, "今日は晴れたので".data, none⟩
            ⟨2, 13/10, 2, "出かけました".data, none⟩) "spk" [] 0] 1 [] ∧
    structureSegments
        [⟨1, 0, 1, "今日は晴れたので".data, none⟩, ⟨2, 13/10, 2, "出かけました".data, none⟩]
        "spk" =
      [⟨0, "spk", "今日は晴れたので 出かけました".data, 0, 2, 2, none, 0, "SHORT", 0⟩] :=
  incompleteEnding_merge ("spk") [] 0
    ⟨1, 0, 1, "今日は晴れたので".data, none⟩ ⟨2, 13/10, 2, "出かけました".data, none⟩ []
    (by decide) (by decide) (by decide)

/-- C2 counterexample: on the three-segment input (incomplete ending, filler,
continuation within a short pause of the first segment) the code emits two
units — the filler attaches to the unit built from the first segment alone and
the third segment forms its own unit — so no single merged unit combining the
first and third segments ever exists, contradicting the claim. -/
theorem fillerAfterIncomplete_counterexample :
    (structureSegments
      [⟨1, 0, 1, "今日は晴れたので".data, none⟩, ⟨2, 11/10, 12/10, "あの".data, none⟩,
       ⟨3, 13/10, 2, "出かけました".data, none⟩] "spk").map (fun u => u.text) =
      ["今日は晴れたので あの".data, "出かけました".data] ∧
    (structureSegments
      [⟨1, 0, 1, "今日は晴れたので".data, none⟩, ⟨2, 11/10, 12/10, "あの".data, none⟩,
       ⟨3, 13/10, 2, "出かけました".data, none⟩] "spk").length ≠ 1 := by
  exact ⟨by decide, by decide⟩

/-- C2 amended: a filler segment immediately following an incomplete-ending
segment is absorbed into the unit built from that segment *alone*: because the
next segment is a filler the incomplete-ending merge is skipped and a unit is
built from the current segment by itself, then the filler is absorbed into it
on the next loop step; the walk continues with the remaining segments, and the
incomplete-ending rule is never re-applied across the absorbed filler, so the
segment after the filler is not merged with the incomplete-ending segment. -/
theorem fillerAfterIncomplete_attaches_to_first
    (speaker_id : String) (acc : List UtteranceUnit) (index : Nat)
    (s f : ASRSegment) (rest : List ASRSegment)
    (h1 : hasIncompleteEnding s.text = true)
    (h2 : isFillerOnly f.text = true) :
    structureLoop speaker_id acc index (s :: f :: rest) =
      structureLoop speaker_id
        (mergeWithPrevious (createUtteranceUnit s speaker_id acc index) f :: acc)
        (index + 1) rest := by
  rw [structureLoop_normal speaker_id acc index s f rest
    (Or.inr (hasIncomplete_not_filler h1)) (by rw [h2]; rfl)]
  exact structureLoop_filler speaker_id
    (createUtteranceUnit s speaker_id acc index) acc (index + 1) f rest h2

theorem fillerAfterIncomplete_attaches_to_first_witness :
    structureLoop ("spk") [] 0
        [⟨1, 0, 1, "今日は晴れたので".data, none⟩, ⟨2, 11/10, 12/10, "あの".data, none⟩,
         ⟨3, 13/10, 2, "出かけました".data, none⟩] =
      structureLoop ("spk")
        [mergeWithPrevious
          (createUtteranceUnit ⟨1, 0, 1, "今日は晴れたので".data, none⟩ "spk" [] 0)
          ⟨2, 11/10, 12/10, "あの".data, none⟩] 1
        [⟨3, 13/10, 2, "出かけました".data, none⟩] :=
  fillerAfterIncomplete_attaches_to_first ("spk") [] 0
    ⟨1, 0, 1, "今日は晴れたので".data, none⟩ ⟨2, 11/10, 12/10, "あの".data, none⟩
    [⟨3, 13/10, 2, "出かけました".data, none⟩] (by decide) (by decide)

/-- C8: when the walk meets a filler-only segment with no unit yet built, the
filler falls through to normal processing and produces its own unit at the
current index (it is not dropped); on the single-filler-segment input the
output is exactly one unit with the filler text. -/
theorem fillerFirst_not_dropped
    (speaker_id : String) (s : ASRSegment) (rest : List ASRSegment)
    (h : isFillerOnly s.text = true) :
    structureLoop speaker_id [] 0 (s :: rest) =
      structureLoop speaker_id [createUtteranceUnit s speaker_id [] 0] 1 rest ∧
    structureSegments [⟨1, 0, 1/2, "あの".data, none⟩] "spk" =
      [⟨0, "spk", "あの".data, 0, 1/2, 1/2, none, 0, "SHORT", 0⟩] := by
  constructor
  · cases rest with
    | nil => exact structureLoop_single speaker_id [] 0 s (Or.inl rfl)
    | cons next rest' =>
      refine structureLoop_normal speaker_id [] 0 s next rest' (Or.inl rfl) ?_
      rw [isFillerOnly_not_incomplete h]
      simp
  · decide

theorem fillerFirst_not_dropped_witness :
    structureLoop ("spk") [] 0 [⟨1, 0, 1/2, "あの".data, none⟩] =
      structureLoop ("spk")
        [createUtteranceUnit ⟨1, 0, 1/2, "あの".data, none⟩ "spk" [] 0] 1 [] ∧
    structureSegments [⟨1, 0, 1/2, "あの".data, none⟩] "spk" =
      [⟨0, "spk", "あの".data, 0, 1/2, 1/2, none, 0, "SHORT", 0⟩] :=
  fillerFirst_not_dropped ("spk") ⟨1, 0, 1/2, "あの".data, none⟩ [] (by decide)

/-- C10: every unit returned by `structure` has `pause_level` equal to the
pause classifier applied to its own `pause_before` (SHORT iff below `0.7`,
NORMAL iff in `[0.7, 2.0)`, LONG iff at least `2.0`); filler absorption copies
both fields unchanged, so the consistency survives merging. -/
theorem pause_level_consistent (asr_segments : List ASRSegment) (speaker_id : String) :
    ∀ u ∈ structureSegments asr_segments speaker_id,
      u.pause_level = classifyPauseLevel u.pause_before ∧
      (u.pause_level = "SHORT" ↔ u.pause_before < 7/10) ∧
      (u.pause_level = "NORMAL" ↔ 7/10 ≤ u.pause_before ∧ u.pause_before < 2) ∧
      (u.pause_level = "LONG" ↔ 2 ≤ u.pause_before) := by
  intro u hu
  rw [structureSegments_eq_loop] at hu
  have h := structureLoop_level_inv speaker_id [] 0 _ (by simp) u hu
  refine ⟨h, ?_, ?_, ?_⟩ <;> rw [h]
  · exact (classifyPauseLevel_iff u.pause_before).1
  · exact (classifyPauseLevel_iff u.pause_before).2.1
  · exact (classifyPauseLevel_iff u.pause_before).2.2

theorem pause_level_consistent_witness :
    (⟨0, "spk", "こんにちは".data, 0, 1, 1, none, 0, "SHORT", 0⟩ : UtteranceUnit).pause_level =
      classifyPauseLevel
        (⟨0, "spk", "こんにちは".data, 0, 1, 1, none, 0, "SHORT", 0⟩ : UtteranceUnit).pause_before ∧
    ((⟨0, "spk", "こんにちは".data, 0, 1, 1, none, 0, "SHORT", 0⟩ : UtteranceUnit).pause_level = "SHORT" ↔
      (⟨0, "spk", "こんにちは".data, 0, 1, 1, none, 0, "SHORT", 0⟩ : UtteranceUnit).pause_before < 7/10) ∧
    ((⟨0, "spk", "こんにちは".data, 0, 1, 1, none, 0, "SHORT", 0⟩ : UtteranceUnit).pause_level = "NORMAL" ↔
      7/10 ≤ (⟨0, "spk", "こんにちは".data, 0, 1, 1, none, 0, "SHORT", 0⟩ : UtteranceUnit).pause_before ∧
      (⟨0, "spk", "こんにちは".data, 0, 1, 1, none, 0, "SHORT", 0⟩ : UtteranceUnit).pause_before < 2) ∧
    ((⟨0, "spk", "こんにちは".data, 0, 1, 1, none, 0, "SHORT", 0⟩ : UtteranceUnit).pause_level = "LONG" ↔
      2 ≤ (⟨0, "spk", "こんにちは".data, 0, 1, 1, none, 0, "SHORT", 0⟩ : UtteranceUnit).pause_before) :=
  pause_level_consistent [⟨1, 0, 1, "こんにちは".data, none⟩] "spk"
    ⟨0, "spk", "こんにちは".data, 0, 1, 1, none, 0, "SHORT", 0⟩ (by decide)

/-- One step of the pause invariant: consing a new unit onto the working list
preserves non-negativity of `pause_before` everywhere and the zero
`pause_before` of the list's last (chronologically first) element. -/
lemma pause_inv_step (newUnit : UtteranceUnit) (a : List UtteranceUnit)
    (hnew : 0 ≤ newUnit.pause_before)
    (hnew0 : a = [] → newUnit.pause_before = 0)
    (h1 : ∀ u ∈ a, 0 ≤ u.pause_before)
    (h2 : ∀ u, a.getLast? = some u → u.pause_before = 0) :
    (∀ u ∈ newUnit :: a, 0 ≤ u.pause_before) ∧
    (∀ u, (newUnit :: a).getLast? = some u → u.pause_before = 0) := by
  constructor
  · intro w hw
    rcases List.mem_cons.mp hw with rfl | hw
    · exact hnew
    · exact h1 w hw
  · intro w hw
    cases a with
    | nil =>
      simp only [List.getLast?_singleton, Option.some.injEq] at hw
      subst hw
      exact hnew0 rfl
    | cons v a' =>
      rw [List.getLast?_cons_cons] at hw
      exact h2 w hw

/-- Loop invariant for C7: all accumulated units have non-negative
`pause_before`, the accumulator's last element (the chronologically first
unit) has `pause_before = 0`, and both transfer to the loop's output. -/
lemma structureLoop_pause_inv (spk : String) :
    ∀ (acc : List UtteranceUnit) (idx : Nat) (segs : List ASRSegment),
    (∀ u ∈ acc, 0 ≤ u.pause_before) →
    (∀ u, acc.getLast? = some u → u.pause_before = 0) →
    (∀ u ∈ structureLoop spk acc idx segs, 0 ≤ u.pause_before) ∧
    (∀ u, (structureLoop spk acc idx segs).head? = some u → u.pause_before = 0) := by
  intro acc idx segs
  induction acc, idx, segs using structureLoop.induct spk with
  | case1 acc idx =>
    intro h1 h2
    rw [structureLoop_nil]
    constructor
    · intro u hu
      exact h1 u (List.mem_reverse.mp hu)
    · intro u hu
      rw [List.head?_reverse] at hu
      exact h2 u hu
  | case2 idx s u acc' hf ih =>
    intro h1 h2
    rw [structureLoop_filler spk u acc' idx s [] hf]
    have h2' : ∀ w, acc'.getLast? = some w → w.pause_before = 0 := by
      intro w hw
      apply h2 w
      cases acc' with
      | nil => simp at hw
      | cons v a' => rw [List.getLast?_cons_cons]; exact hw
    obtain ⟨g1, g2⟩ := pause_inv_step
      (mergeWithPrevious u s) acc'
      (by rw [mergeWithPrevious_pause]; exact h1 u (List.mem_cons_self u acc'))
      (by intro ha; subst ha; rw [mergeWithPrevious_pause]; exact h2 u (by simp))
      (fun w hw => h1 w (List.mem_cons_of_mem u hw)) h2'
    exact ih g1 g2
  | case3 idx s a hguard ih =>
    intro h1 h2
    rw [structureLoop_single spk a idx s (acc_case_resolve hguard)]
    obtain ⟨g1, g2⟩ := pause_inv_step
      (createUtteranceUnit s spk a idx) a
      (createUtteranceUnit_pause_nonneg s spk a idx)
      (by intro ha; subst ha; exact createUtteranceUnit_pause_nil s spk idx)
      h1 h2
    exact ih g1 g2
  | case4 idx s next rest' u acc' hf ih =>
    intro h1 h2
    rw [structureLoop_filler spk u acc' idx s (next :: rest') hf]
    have h2' : ∀ w, acc'.getLast? = some w → w.pause_before = 0 := by
      intro w hw
      apply h2 w
      cases acc' with
      | nil => simp at hw
      | cons v a' => rw [List.getLast?_cons_cons]; exact hw
    obtain ⟨g1, g2⟩ := pause_inv_step
      (mergeWithPrevious u s) acc'
      (by rw [mergeWithPrevious_pause]; exact h1 u (List.mem_cons_self u acc'))
      (by intro ha; subst ha; rw [mergeWithPrevious_pause]; exact h2 u (by simp))
      (fun w hw => h1 w (List.mem_cons_of_mem u hw)) h2'
    exact ih g1 g2
  | case5 idx s next rest' a hcond hguard ih =>
    intro h1 h2
    rw [structureLoop_merge spk a idx s next rest' (acc_case_resolve hguard) hcond]
    obtain ⟨g1, g2⟩ := pause_inv_step
      (createUtteranceUnit (mergeSegments s next) spk a idx) a
      (createUtteranceUnit_pause_nonneg (mergeSegments s next) spk a idx)
      (by intro ha; subst ha; exact createUtteranceUnit_pause_nil (mergeSegments s next) spk idx)
      h1 h2
    exact ih g1 g2
  | case6 idx s next rest' a hcond hguard ih =>
    intro h1 h2
    rw [structureLoop_normal spk a idx s next rest' (acc_case_resolve hguard)
      (bool_eq_false hcond)]
    obtain ⟨g1, g2⟩ := pause_inv_step
      (createUtteranceUnit s spk a idx) a
      (createUtteranceUnit_pause_nonneg s spk a idx)
      (by intro ha; subst ha; exact createUtteranceUnit_pause_nil s spk idx)
      h1 h2
    exact ih g1 g2

/-- C7: for every input, the first returned unit has `pause_before = 0`, and
no returned unit has a negative `pause_before` — even when input segments
overlap, because the value is clamped at zero with `max`. -/
theorem first_pause_zero_and_nonneg (asr_segments : List ASRSegment) (speaker_id : String) :
    (∀ u, (structureSegments asr_segments speaker_id).head? = some u →
      u.pause_before = 0) ∧
    ∀ u ∈ structureSegments asr_segments speaker_id, 0 ≤ u.pause_before := by
  have h := structureLoop_pause_inv speaker_id [] 0 (asr_segments.insertionSort segStartLE)
    (by intro u hu; simp at hu) (by intro u hu; simp at hu)
  rw [structureSegments_eq_loop]
  exact ⟨h.2, h.1⟩

theorem first_pause_zero_and_nonneg_witness :
    (⟨0, "spk", "はい".data, 3, 4, 1, none, 0, "SHORT", 0⟩ : UtteranceUnit).pause_before = 0 ∧
    (0 : ℚ) ≤ (⟨0, "spk", "はい".data, 3, 4, 1, none, 0, "SHORT", 0⟩ : UtteranceUnit).pause_before :=
  ⟨(first_pause_zero_and_nonneg [⟨1, 3, 4, "はい".data, none⟩, ⟨2, 7/2, 5, "ええ".data, none⟩]
      "spk").1 ⟨0, "spk", "はい".data, 3, 4, 1, none, 0, "SHORT", 0⟩ (by decide),
   (first_pause_zero_and_nonneg [⟨1, 3, 4, "はい".data, none⟩, ⟨2, 7/2, 5, "ええ".data, none⟩]
      "spk").2 ⟨0, "spk", "はい".data, 3, 4, 1, none, 0, "SHORT", 0⟩ (by decide)⟩

lemma range_succ_reverse (n : Nat) :
    (List.range (n + 1)).reverse = n :: (List.range n).reverse := by
  rw [List.range_succ, List.reverse_append]
  rfl

/-- Loop invariant for the index half of C1: if the working list carries the
indices `idx-1, ..., 0` (most recent first), the loop's output carries the
indices `0, ..., n-1` for some `n`: filler absorption keeps the index of the
unit it replaces and every creation consumes the next index. -/
lemma structureLoop_index_inv (spk : String) :
    ∀ (acc : List UtteranceUnit) (idx : Nat) (segs : List ASRSegment),
    acc.map (fun u => u.index_in_session) = (List.range idx).reverse →
    ∃ n, (structureLoop spk acc idx segs).map (fun u => u.index_in_session) =
      List.range n := by
  intro acc idx segs
  induction acc, idx, segs using structureLoop.induct spk with
  | case1 acc idx =>
    intro hacc
    rw [structureLoop_nil]
    exact ⟨idx, by rw [List.map_reverse, hacc, List.reverse_reverse]⟩
  | case2 idx s u acc' hf ih =>
    intro hacc
    rw [structureLoop_filler spk u acc' idx s [] hf]
    apply ih
    rw [List.map_cons, mergeWithPrevious_index]
    rw [List.map_cons] at hacc
    exact hacc
  | case3 idx s a hguard ih =>
    intro hacc
    rw [structureLoop_single spk a idx s (acc_case_resolve hguard)]
    apply ih
    rw [List.map_cons, createUtteranceUnit_index, hacc, range_succ_reverse]
  | case4 idx s next rest' u acc' hf ih =>
    intro hacc
    rw [structureLoop_filler spk u acc' idx s (next :: rest') hf]
    apply ih
    rw [List.map_cons, mergeWithPrevious_index]
    rw [List.map_cons] at hacc
    exact hacc
  | case5 idx s next rest' a hcond hguard ih =>
    intro hacc
    rw [structureLoop_merge spk a idx s next rest' (acc_case_resolve hguard) hcond]
    apply ih
    rw [List.map_cons, createUtteranceUnit_index, hacc, range_succ_reverse]
  | case6 idx s next rest' a hcond hguard ih =>
    intro hacc
    rw [structureLoop_normal spk a idx s next rest' (acc_case_resolve hguard)
      (bool_eq_false hcond)]
    apply ih
    rw [List.map_cons, createUtteranceUnit_index, hacc, range_succ_reverse]

/-- Loop invariant for the start-time half of C1: the working list is
non-increasing in `start_time` (most recent first), every remaining segment
starts no earlier than every accumulated unit, and the remaining segments are
sorted; then the loop's output is non-decreasing in `start_time`. -/
lemma structureLoop_sorted_inv (spk : String) :
    ∀ (acc : List UtteranceUnit) (idx : Nat) (segs : List ASRSegment),
    List.Pairwise (fun a b => b.start_time ≤ a.start_time) acc →
    (∀ u ∈ acc, ∀ t ∈ segs, u.start_time ≤ t.start_time) →
    List.Pairwise (fun (a b : ASRSegment) => a.start_time ≤ b.start_time) segs →
    List.Pairwise (fun (a b : UtteranceUnit) => a.start_time ≤ b.start_time)
      (structureLoop spk acc idx segs) := by
  intro acc idx segs
  induction acc, idx, segs using structureLoop.induct spk with
  | case1 acc idx =>
    intro hacc _ _
    rw [structureLoop_nil]
    exact List.pairwise_reverse.mpr hacc
  | case2 idx s u acc' hf ih =>
    intro hacc hmem hsort
    rw [structureLoop_filler spk u acc' idx s [] hf]
    refine ih ?_ ?_ List.Pairwise.nil
    · rw [List.pairwise_cons] at hacc ⊢
      refine ⟨fun b hb => ?_, hacc.2⟩
      rw [mergeWithPrevious_start]
      exact hacc.1 b hb
    · intro v _ t ht
      simp at ht
  | case3 idx s a hguard ih =>
    intro hacc hmem hsort
    rw [structureLoop_single spk a idx s (acc_case_resolve hguard)]
    refine ih ?_ ?_ List.Pairwise.nil
    · rw [List.pairwise_cons]
      refine ⟨fun b hb => ?_, hacc⟩
      rw [createUtteranceUnit_start]
      exact hmem b hb s (List.mem_cons_self s [])
    · intro v _ t ht
      simp at ht
  | case4 idx s next rest' u acc' hf ih =>
    intro hacc hmem hsort
    rw [structureLoop_filler spk u acc' idx s (next :: rest') hf]
    refine ih ?_ ?_ ((List.pairwise_cons.mp hsort).2)
    · rw [List.pairwise_cons] at hacc ⊢
      refine ⟨fun b hb => ?_, hacc.2⟩
      rw [mergeWithPrevious_start]
      exact hacc.1 b hb
    · intro v hv t ht
      rcases List.mem_cons.mp hv with rfl | hv
      · rw [mergeWithPrevious_start]
        exact hmem u (List.mem_cons_self u acc') t (List.mem_cons_of_mem s ht)
      · exact hmem v (List.mem_cons_of_mem u hv) t (List.mem_cons_of_mem s ht)
  | case5 idx s next rest' a hcond hguard ih =>
    intro hacc hmem hsort
    rw [structureLoop_merge spk a idx s next rest' (acc_case_resolve hguard) hcond]
    refine ih ?_ ?_ (((List.pairwise_cons.mp hsort).2).of_cons)
    · rw [List.pairwise_cons]
      refine ⟨fun b hb => ?_, hacc⟩
      rw [createUtteranceUnit_start, mergeSegments_start]
      exact hmem b hb s (List.mem_cons_self s (next :: rest'))
    · intro v hv t ht
      rcases List.mem_cons.mp hv with rfl | hv
      · rw [createUtteranceUnit_start, mergeSegments_start]
        exact (List.pairwise_cons.mp hsort).1 t (List.mem_cons_of_mem next ht)
      · exact hmem v hv t (List.mem_cons_of_mem s (List.mem_cons_of_mem next ht))
  | case6 idx s next rest' a hcond hguard ih =>
    intro hacc hmem hsort
    rw [structureLoop_normal spk a idx s next rest' (acc_case_resolve hguard)
      (bool_eq_false hcond)]
    refine ih ?_ ?_ ((List.pairwise_cons.mp hsort).2)
    · rw [List.pairwise_cons]
      refine ⟨fun b hb => ?_, hacc⟩
      rw [createUtteranceUnit_start]
      exact hmem b hb s (List.mem_cons_self s (next :: rest'))
    · intro v hv t ht
      rcases List.mem_cons.mp hv with rfl | hv
      · rw [createUtteranceUnit_start]
        exact (List.pairwise_cons.mp hsort).1 t ht
      · exact hmem v hv t (List.mem_cons_of_mem s ht)

/-- C1: for every input segment list and speaker id, the returned units'
`start_time` values are non-decreasing in list order and their
`index_in_session` values are exactly `0, ..., n-1` in list order (gap-free
and strictly increasing), where `n` is the number of returned units. -/
theorem output_ordering (asr_segments : List ASRSegment) (speaker_id : String) :
    (structureSegments asr_segments speaker_id).map (fun u => u.index_in_session) =
      List.range (structureSegments asr_segments speaker_id).length ∧
    List.Pairwise (fun (a b : UtteranceUnit) => a.start_time ≤ b.start_time)
      (structureSegments asr_segments speaker_id) := by
  constructor
  · rw [structureSegments_eq_loop]
    obtain ⟨n, hn⟩ := structureLoop_index_inv speaker_id [] 0
      (asr_segments.insertionSort segStartLE) (by simp)
    have hlen : n =
        (structureLoop speaker_id [] 0 (asr_segments.insertionSort segStartLE)).length := by
      rw [← List.length_range n, ← hn, List.length_map]
    rw [hn, hlen]
  · rw [structureSegments_eq_loop]
    refine structureLoop_sorted_inv speaker_id [] 0 _ List.Pairwise.nil ?_ ?_
    · intro u hu
      simp at hu
    · exact (List.sorted_insertionSort segStartLE asr_segments).imp (fun h => h)
